import Mathlib

/-!
Shallow embedding of the variant-record consolidation and evidence-filtering
stage of `TELR_sv.py` (functions `vcf_parse_filter`, `parse_vcf`,
`rm_vcf_redundancy`, `filter_vcf`, `write_ins_seqs`, `id_merge`,
`get_unique_list`, `af_sum`), together with theorems settling the
specification claims about it.

Files are modelled as lists of lines (without their terminating newline).
Python strings are Lean `String`s; Python's `str.split(sep)` and
`sep.join(xs)` for a one-character separator are embedded via Mathlib's
`List.splitOn` / `List.intercalate` on the underlying character lists.
Numeric dataframe columns are modelled over `Int` and `ℚ` (pandas uses
int64/float64; none of the claims concern floating rounding).
-/

/-- Embedding of Python's `s.split(sep)` for a one-character separator `sep`:
split on every occurrence, keeping empty pieces. -/
def pySplit (sep : Char) (s : String) : List String :=
  (s.data.splitOn sep).map (fun cs => ⟨cs⟩)

/-- Embedding of Python's `sep.join(xs)` for a one-character separator. -/
def pyJoin (sep : Char) (xs : List String) : String :=
  ⟨[sep].intercalate (xs.map String.data)⟩

/-- Embedding of Python's `line.replace("\n", "")`: removing every newline
character from a string (for a one-character pattern, `replace` with the
empty replacement deletes each occurrence). -/
def stripNl (s : String) : String :=
  ⟨s.data.filter (fun c => c ≠ '\n')⟩

/-- Auxiliary for substring containment: does `needle` occur at the head of
`hay`? -/
def beginsWith : List Char → List Char → Bool
  | [], _ => true
  | _ :: _, [] => false
  | a :: as, b :: bs => a == b && beginsWith as bs

/-- Auxiliary for substring containment: does `needle` occur anywhere in
`hay`? -/
def hasSub (needle : List Char) : List Char → Bool
  | [] => beginsWith needle []
  | c :: cs => beginsWith needle (c :: cs) || hasSub needle cs

/-- Embedding of Python's substring test `needle in hay`. -/
def pyContains (needle hay : String) : Bool :=
  hasSub needle.data hay.data

/-- Embedding of `line.replace("\n", "").split("\t")` as used throughout
`filter_vcf` and `write_ins_seqs` (`TELR_sv.py` lines 173, 180, 199). -/
def splitTabNl (line : String) : List String :=
  pySplit '\t' (stripNl line)

/-- Embedding of `contig_name = "_".join([entry[0], entry[1], entry[2]])`
(`TELR_sv.py` line 181; identically `coord` at line 200).  The Lean `getD`
defaults are never exercised on the pipeline's own files, whose lines always
carry 13 tab-separated fields (Python would raise `IndexError` on a line
with fewer than three). -/
def contigLabel (line : String) : String :=
  let entry := splitTabNl line
  pyJoin '_' [entry.getD 0 "", entry.getD 1 "", entry.getD 2 ""]

/-- The fixed tool-identifier token scanned for in the annotator report
(`TELR_sv.py` line 175). -/
def rmToken : String := "RepeatMasker"

/-- Embedding of the `RepeatEvidenceSet` construction (`TELR_sv.py` lines
171–176): the set of first tab-delimited fields of the report lines that
contain the token `"RepeatMasker"`.  The Python set is modelled as a
deduplicated list; only membership in it is ever used. -/
def ins_te_loci (report : List String) : List String :=
  ((report.filter (fun line => pyContains rmToken line)).map
    (fun line => (splitTabNl line).headD "")).dedup

/-- Embedding of the accepted-output pass of `filter_vcf` (`TELR_sv.py`
lines 178–184): keep exactly the input lines whose locus label lies in the
evidence set, preserving the line unchanged. -/
def filter_vcf_accepted (ins report : List String) : List String :=
  ins.filter (fun line => decide (contigLabel line ∈ ins_te_loci report))

/-- Modelled from the spec: `create_loci_set` is imported from
`TELR_utility`, which is not part of the sources; per the spec the audit
pass iterates over the set of merged-locus labels `chr_start_end` of the
file's rows.  Modelled as the deduplicated list of the lines' locus
labels. -/
def create_loci_set (ins : List String) : List String :=
  (ins.map contigLabel).dedup

/-- Embedding of the audit-log line `"\t".join([locus, "VCF sequence not
repeatmasked"])` (`TELR_sv.py` lines 191–193). -/
def auditLine (locus : String) : String :=
  pyJoin '\t' [locus, "VCF sequence not repeatmasked"]

/-- Embedding of the audit pass of `filter_vcf` (`TELR_sv.py` lines
188–193): the lines appended to the evaluation log, one per locus of the
input that is absent from the evidence set. -/
def filter_vcf_audit (ins report : List String) : List String :=
  ((create_loci_set ins).filter
    (fun locus => decide (locus ∉ ins_te_loci report))).map auditLine

/-- The loci of the input whose label is in the evidence set (the loci whose
rows `filter_vcf` writes to the accepted output). -/
def acceptedLoci (ins report : List String) : List String :=
  (create_loci_set ins).filter (fun locus => decide (locus ∈ ins_te_loci report))

/-- The loci of the input absent from the evidence set (the loci
`filter_vcf` reports to the audit log). -/
def rejectedLoci (ins report : List String) : List String :=
  (create_loci_set ins).filter (fun locus => decide (locus ∉ ins_te_loci report))

/-- Embedding of `write_ins_seqs` (`TELR_sv.py` lines 196–202): for each
input line emit the marker-prefixed label line and then the inserted
sequence (field 7). -/
def write_ins_seqs (lines : List String) : List String :=
  lines.flatMap (fun line =>
    let entry := splitTabNl line
    [">" ++ contigLabel line, entry.getD 7 ""])

/-! ## Record-level model of `rm_vcf_redundancy`

`rm_vcf_redundancy` (`TELR_sv.py` lines 92–127) loads the parsed VCF into a
pandas dataframe with the 13 column names of `header`, groups by
`(chr, start, end)` and aggregates each remaining column with the reducer
given in the `.agg` table.  The typed rows of that dataframe are modelled by
`ParsedRow`; the `end` column is named `stop` because `end` is a Lean
keyword.  pandas sorts the group keys in its output; the claims proved
below are insensitive to row order, so the groups are enumerated here in
first-occurrence order of their keys. -/

/-- One typed row of the parsed-VCF dataframe (the 13 columns of `header`
at `TELR_sv.py` lines 93–107).  `coverage`, `ref_count`, `alt_count`,
`length`, `start`, `stop` are int64 columns (modelled as `Int`), `AF` is a
float64 column (modelled as `ℚ`), the rest are string columns. -/
structure ParsedRow where
  chr : String
  start : Int
  stop : Int
  length : Int
  coverage : Int
  af : ℚ
  id : String
  seq : String
  reads : String
  filt : String
  genotype : String
  ref_count : Int
  alt_count : Int
deriving DecidableEq, Inhabited

/-- The group key of `df.groupby(["chr", "start", "end"])`. -/
abbrev LocusKey := String × Int × Int

/-- The locus key of a row. -/
def keyOf (r : ParsedRow) : LocusKey := (r.chr, r.start, r.stop)

/-- The distinct locus keys of the input, one per group produced by
`groupby`. -/
def lociKeys (rows : List ParsedRow) : List LocusKey :=
  (rows.map keyOf).dedup

/-- The group of rows sharing the key `k`. -/
def groupOf (rows : List ParsedRow) (k : LocusKey) : List ParsedRow :=
  rows.filter (fun r => decide (keyOf r = k))

/-- Embedding of `get_unique_list` (`TELR_sv.py` lines 212–217):
`list(set(list1))`.  Python's set-iteration order is arbitrary; it is
modelled by first-occurrence deduplication, and only the set of elements of
the result is ever relied upon. -/
def get_unique_list (list1 : List String) : List String :=
  list1.dedup

/-- Embedding of `id_merge` (`TELR_sv.py` lines 205–209): comma-join the
group's read-name strings, split on commas, deduplicate, rejoin. -/
def id_merge (strings : List String) : String :=
  let string_merged := pyJoin ',' strings
  let ids := pySplit ',' string_merged
  pyJoin ',' (get_unique_list ids)

/-- Embedding of `af_sum` (`TELR_sv.py` lines 220–224). -/
def af_sum (nums : List ℚ) : ℚ :=
  let sum_nums := nums.sum
  if sum_nums > 1 then 1 else sum_nums

/-- Reduction of an integer into the signed 64-bit range: `wrap64 n` is the
representative of `n` modulo `2^64` lying in `[-2^63, 2^63)`.  The numerals
are `2^63` and `2^64`.  pandas' groupby-`sum` over an int64 column is a
numpy int64 sum, which wraps silently on overflow; wrapping each
intermediate addition agrees with wrapping the exact sum once, so the
column sum is `wrap64` of the mathematical sum. -/
def wrap64 (n : Int) : Int :=
  (n + 9223372036854775808) % 18446744073709551616 - 9223372036854775808

/-- The `.agg` reducer table of `rm_vcf_redundancy` (`TELR_sv.py` lines
111–124) applied to one non-empty group: `first` for
`length`/`ID`/`seq`/`filter`/`genotype`, `sum` for
`coverage`/`ref_count`/`alt_count`, `af_sum` for `AF`, `id_merge` for
`reads`; the group key is the common key of the group's rows.  The three
summed columns are int64, so their sums wrap on overflow: each is `wrap64`
of the exact sum. -/
def mergeGroup (g : List ParsedRow) : ParsedRow :=
  let h := g.headD default
  { chr := h.chr
    start := h.start
    stop := h.stop
    length := h.length
    coverage := wrap64 (g.map (fun r => r.coverage)).sum
    af := af_sum (g.map (fun r => r.af))
    id := h.id
    seq := h.seq
    reads := id_merge (g.map (fun r => r.reads))
    filt := h.filt
    genotype := h.genotype
    ref_count := wrap64 (g.map (fun r => r.ref_count)).sum
    alt_count := wrap64 (g.map (fun r => r.alt_count)).sum }

/-- Embedding of the groupby-aggregate of `rm_vcf_redundancy`
(`TELR_sv.py` lines 109–126): one merged row per distinct locus key. -/
def rm_vcf_redundancy (rows : List ParsedRow) : List ParsedRow :=
  (lociKeys rows).map (fun k => mergeGroup (groupOf rows k))

/-! ## Model of the pandas CSV reading used by `rm_vcf_redundancy`

`pd.read_csv(vcf_in, delimiter="\t", names=header)` (`TELR_sv.py` line
108).  Reading a completely empty file raises
`pandas.errors.EmptyDataError("No columns to parse from file")`, even when
`names` is supplied.  A data line with fewer fields than the 13 column
names is not rejected: the missing trailing columns are filled with the
missing-value marker NaN (modelled as `none`).  A line with more fields
than the declared schema is outside every claim and is modelled as keeping
its fields. -/

/-- One raw line as read by `pd.read_csv` with the 13-name schema: the
tab-separated fields, padded to 13 entries with the missing-value marker. -/
def readCsvLine (line : String) : List (Option String) :=
  let fs := pySplit '\t' line
  fs.map some ++ List.replicate (13 - fs.length) none

/-- `pd.read_csv` over a whole file (a list of lines): with the default
`skip_blank_lines=True`, completely blank lines yield no row; if no data
line remains (the file is empty, or holds only blank lines), pandas raises
`EmptyDataError`; otherwise every remaining line is read, short lines
padded. -/
def readCsv (lines : List String) : Except String (List (List (Option String))) :=
  let dataLines := lines.filter (fun l => l ≠ "")
  if dataLines.isEmpty then
    Except.error "EmptyDataError: No columns to parse from file"
  else
    Except.ok (dataLines.map readCsvLine)

/-- Model of pandas' numeric conversion of an int64 column entry: leading
and trailing whitespace is tolerated and discarded, the remainder must be a
(possibly sign-prefixed) decimal numeral. -/
def natOfChars (cs : List Char) : Option Nat :=
  if cs.isEmpty then none
  else
    cs.foldl
      (fun acc c =>
        acc.bind (fun a => if c.isDigit then some (a * 10 + (c.toNat - 48)) else none))
      (some 0)

/-- Signed decimal numeral over characters. -/
def intOfChars : List Char → Option Int
  | '-' :: cs => (natOfChars cs).map (fun n => -(n : Int))
  | cs => (natOfChars cs).map (fun n => (n : Int))

/-- Whitespace-tolerant int64 conversion of one field, as pandas performs
when inferring an integer column (the bcftools query format of
`parse_vcf`, line 80, puts a leading space before the GT/DR/DV fields). -/
def pandasInt (s : String) : Option Int :=
  intOfChars ((s.data.dropWhile (fun c => c = ' ')).reverse.dropWhile
    (fun c => c = ' ') |>.reverse)

/-- Unsigned decimal or decimal-point numeral over characters, as pandas'
float64 conversion accepts for the AF column (AF values are plain
non-negative decimals such as `0.6`). -/
def ratOfChars (cs : List Char) : Option ℚ :=
  match cs.splitOn '.' with
  | [w] => (natOfChars w).map (fun n => (n : ℚ))
  | [w, f] =>
    (natOfChars w).bind (fun wn =>
      (natOfChars f).map (fun fn => (wn : ℚ) + (fn : ℚ) / ((10 : ℚ) ^ f.length)))
  | _ => none

/-- Whitespace-tolerant float64 conversion of one field. -/
def pandasRat (s : String) : Option ℚ :=
  ratOfChars ((s.data.dropWhile (fun c => c = ' ')).reverse.dropWhile
    (fun c => c = ' ') |>.reverse)

/-- Typed conversion of one read line into a `ParsedRow`, following the
column dtypes pandas infers on the parsed VCF: columns 1–4, 11, 12 are
integer, column 5 is float, the rest are kept verbatim as strings (pandas
does not strip whitespace from string entries; `skipinitialspace` defaults
to `False`). -/
def rowOfFields (f : List (Option String)) : Option ParsedRow :=
  match f.getD 0 none, (f.getD 1 none).bind pandasInt,
        (f.getD 2 none).bind pandasInt, (f.getD 3 none).bind pandasInt,
        (f.getD 4 none).bind pandasInt, (f.getD 5 none).bind pandasRat,
        f.getD 6 none, f.getD 7 none, f.getD 8 none, f.getD 9 none,
        f.getD 10 none, (f.getD 11 none).bind pandasInt,
        (f.getD 12 none).bind pandasInt with
  | some chr, some start, some stop, some length, some coverage, some af,
    some id, some seq, some reads, some filt, some genotype, some ref_count,
    some alt_count =>
    some
      { chr := chr, start := start, stop := stop, length := length
        coverage := coverage, af := af, id := id, seq := seq, reads := reads
        filt := filt, genotype := genotype, ref_count := ref_count
        alt_count := alt_count }
  | _, _, _, _, _, _, _, _, _, _, _, _, _ => none

/-- The whole `rm_vcf_redundancy` run at file level: read the parsed VCF
with pandas (raising `EmptyDataError` on an empty file), convert the rows,
then group and aggregate. -/
def rm_vcf_redundancy_run (lines : List String) : Except String (List ParsedRow) :=
  (readCsv lines).bind (fun rows =>
    match rows.mapM rowOfFields with
    | some rs => Except.ok (rm_vcf_redundancy rs)
    | none => Except.error "dtype conversion failed")

/-- The locus label of a key as it appears in the merged file's lines: the
first three serialized columns joined with underscores (`filter_vcf`
recomputes it with `"_".join` on the csv fields; integer columns serialize
as their decimal numerals). -/
def keyLabel (k : LocusKey) : String :=
  pyJoin '_' [k.1, toString k.2.1, toString k.2.2]

/-- The locus label of a merged row. -/
def rowLabel (r : ParsedRow) : String := keyLabel (keyOf r)

/-- Record-level embedding of the `vcf_parse_filter` wiring (`TELR_sv.py`
lines 64–75): `parse_vcf` writes the merged table produced by
`rm_vcf_redundancy` to the temporary file, and `filter_vcf` then streams
THAT file, keeping the merged rows whose locus label lies in the evidence
set built from the annotator report. -/
def vcf_parse_filter_accepted (rows : List ParsedRow) (report : List String) :
    List ParsedRow :=
  (rm_vcf_redundancy rows).filter
    (fun r => decide (rowLabel r ∈ ins_te_loci report))

/-! ## Concrete fixtures

Inputs taken from the spec's test scenarios, used by counterexamples and
witnesses. -/

/-- Scenario B annotator-report line. -/
def scenB : String := "chr1_100_150\trange\tmatch\tRepeatMasker\tAluY"

/-- A raw parsed-input line for locus `chr1_100_150` (Scenario A, first
record), in the 13-field bcftools layout of `parse_vcf`. -/
def cLine1 : String :=
  "chr1\t100\t150\t50\t3\t0.6\tins1\tACGT\tr1,r2,r3\tPASS\t 0/1\t 3\t 3"

/-- The typed row of Scenario A's first record. -/
def cRow1 : ParsedRow :=
  { chr := "chr1", start := 100, stop := 150, length := 50, coverage := 3
    af := 3/5, id := "ins1", seq := "ACGT", reads := "r1,r2,r3", filt := "PASS"
    genotype := " 0/1", ref_count := 3, alt_count := 3 }

/-- The typed row of Scenario A's second record (same locus key). -/
def cRow2 : ParsedRow :=
  { chr := "chr1", start := 100, stop := 150, length := 50, coverage := 2
    af := 3/5, id := "ins1", seq := "ACGT", reads := "r1,r4", filt := "PASS"
    genotype := " 0/1", ref_count := 2, alt_count := 2 }

/-- A raw parsed-input line with integral allele frequency, for witnesses
whose proofs evaluate the typed conversion. -/
def cLine2 : String :=
  "chr2\t500\t520\t40\t4\t1\tins2\tGGG\tr7\tPASS\t 1/1\t 4\t 4"

/-- The typed row of `cLine2`. -/
def cRow3 : ParsedRow :=
  { chr := "chr2", start := 500, stop := 520, length := 40, coverage := 4
    af := 1, id := "ins2", seq := "GGG", reads := "r7", filt := "PASS"
    genotype := " 1/1", ref_count := 4, alt_count := 4 }

/-- A row whose count fields hold `2^62` — in int64 range, but two of them
sum past `2^63 - 1`. -/
def oRow1 : ParsedRow :=
  { chr := "chr3", start := 10, stop := 20, length := 9
    coverage := 4611686018427387904, af := 0, id := "ins3", seq := "AAA"
    reads := "r8", filt := "PASS", genotype := " 0/1"
    ref_count := 4611686018427387904, alt_count := 4611686018427387904 }

/-- A second row at `oRow1`'s locus with the same `2^62` count fields. -/
def oRow2 : ParsedRow :=
  { chr := "chr3", start := 10, stop := 20, length := 9
    coverage := 4611686018427387904, af := 0, id := "ins3", seq := "AAA"
    reads := "r9", filt := "PASS", genotype := " 0/1"
    ref_count := 4611686018427387904, alt_count := 4611686018427387904 }

/-! ## Helper lemmas -/

lemma splitOnP_pieces {α : Type} (p : α → Bool) :
    ∀ (l : List α), ∀ q ∈ l.splitOnP p, ∀ a ∈ q, p a = false := by
  intro l
  induction l with
  | nil =>
    intro q hq a ha
    simp only [List.splitOnP_nil, List.mem_singleton] at hq
    subst hq
    simp at ha
  | cons x xs ih =>
    intro q hq a ha
    rw [List.splitOnP_cons] at hq
    by_cases hx : p x
    · rw [if_pos hx] at hq
      rcases List.mem_cons.mp hq with rfl | hq'
      · simp at ha
      · exact ih q hq' a ha
    · rw [if_neg hx] at hq
      cases h' : xs.splitOnP p with
      | nil => exact absurd h' (List.splitOnP_ne_nil p xs)
      | cons hd tl =>
        rw [h'] at hq
        simp only [List.modifyHead] at hq
        rcases List.mem_cons.mp hq with rfl | hq'
        · rcases List.mem_cons.mp ha with rfl | ha'
          · exact Bool.eq_false_iff.mpr hx
          · exact ih hd (h' ▸ List.mem_cons_self hd tl) a ha'
        · exact ih q (h' ▸ List.mem_cons_of_mem hd hq') a ha

lemma splitOn_pieces {α : Type} [DecidableEq α] (x : α) (l : List α) :
    ∀ q ∈ l.splitOn x, x ∉ q := by
  intro q hq hmem
  have := splitOnP_pieces (fun a => a == x) l q (by simpa [List.splitOn] using hq) x hmem
  simp at this

lemma pySplit_sep_free (sep : Char) (s : String) :
    ∀ t ∈ pySplit sep s, sep ∉ t.data := by
  intro t ht
  rcases List.mem_map.mp ht with ⟨cs, hcs, rfl⟩
  exact splitOn_pieces sep s.data cs hcs

lemma pySplit_ne_nil (sep : Char) (s : String) : pySplit sep s ≠ [] := by
  unfold pySplit
  rw [Ne, List.map_eq_nil_iff]
  simpa [List.splitOn] using List.splitOnP_ne_nil (fun a => a == sep) s.data

lemma pySplit_pyJoin (sep : Char) (l : List String) (hl : l ≠ [])
    (hfree : ∀ s ∈ l, sep ∉ s.data) : pySplit sep (pyJoin sep l) = l := by
  unfold pySplit pyJoin
  have hsplit : ([sep].intercalate (l.map String.data)).splitOn sep = l.map String.data := by
    refine List.splitOn_intercalate _ sep ?_ ?_
    · intro ld hld
      rcases List.mem_map.mp hld with ⟨s, hs, rfl⟩
      exact hfree s hs
    · simpa using hl
  show (((String.mk ([sep].intercalate (l.map String.data))).data.splitOn sep).map
    fun cs => String.mk cs) = l
  rw [show (String.mk ([sep].intercalate (l.map String.data))).data
      = [sep].intercalate (l.map String.data) from rfl, hsplit, List.map_map]
  have hid : ((fun cs => String.mk cs) ∘ String.data) = id := funext fun s => rfl
  rw [hid, List.map_id]

lemma pyJoin_singleton (sep : Char) (s : String) : pyJoin sep [s] = s := by
  unfold pyJoin
  simp [List.intercalate]

lemma id_merge_eq (l : List String) :
    id_merge l = pyJoin ',' (get_unique_list (pySplit ',' (pyJoin ',' l))) := rfl

lemma groupOf_key (rows : List ParsedRow) (k : LocusKey) :
    ∀ r ∈ groupOf rows k, keyOf r = k := by
  intro r hr
  have := (List.mem_filter.mp hr).2
  simpa using this

lemma groupOf_ne_nil {rows : List ParsedRow} {k : LocusKey}
    (h : k ∈ lociKeys rows) : groupOf rows k ≠ [] := by
  have h' : k ∈ rows.map keyOf := List.mem_dedup.mp (by simpa [lociKeys] using h)
  rcases List.mem_map.mp h' with ⟨r, hr, rfl⟩
  exact List.ne_nil_of_mem (List.mem_filter.mpr ⟨hr, by simp⟩)

lemma keyOf_mergeGroup {g : List ParsedRow} {k : LocusKey} (hne : g ≠ [])
    (hk : ∀ r ∈ g, keyOf r = k) : keyOf (mergeGroup g) = k := by
  cases g with
  | nil => exact absurd rfl hne
  | cons a tl => exact hk a (List.mem_cons_self a tl)

/-! ## Claim theorems -/

/-- C5: the read-name merge (split each member on comma, concatenate,
deduplicate, rejoin) is idempotent — in fact re-merging an already-merged
read-name string returns the very same string, so in particular the set of
its comma-separated components is unchanged — and the merged result of any
group lists each read name exactly once (its components are nodup). -/
theorem id_merge_set_idempotent (ss : List String) :
    id_merge [id_merge ss] = id_merge ss
    ∧ (pySplit ',' (id_merge [id_merge ss])).toFinset
        = (pySplit ',' (id_merge ss)).toFinset
    ∧ (pySplit ',' (id_merge ss)).Nodup := by
  have hfree : ∀ s ∈ get_unique_list (pySplit ',' (pyJoin ',' ss)), ',' ∉ s.data := by
    intro s hs
    exact pySplit_sep_free ',' (pyJoin ',' ss) s (List.mem_dedup.mp hs)
  have hne : get_unique_list (pySplit ',' (pyJoin ',' ss)) ≠ [] := by
    unfold get_unique_list
    rw [Ne, List.dedup_eq_nil]
    exact pySplit_ne_nil ',' (pyJoin ',' ss)
  have hsplit : pySplit ',' (id_merge ss)
      = get_unique_list (pySplit ',' (pyJoin ',' ss)) := by
    rw [id_merge_eq]
    exact pySplit_pyJoin ',' _ hne hfree
  have hmain : id_merge [id_merge ss] = id_merge ss := by
    rw [id_merge_eq [id_merge ss], pyJoin_singleton, hsplit]
    unfold get_unique_list
    rw [(List.nodup_dedup (pySplit ',' (pyJoin ',' ss))).dedup]
    exact (id_merge_eq ss).symm
  refine ⟨hmain, by rw [hmain], ?_⟩
  rw [hsplit]
  exact List.nodup_dedup _

/-- C2: every merged row's allele frequency is `min 1` of its group's AF
sum — the plain sum when the sum is at most 1, and exactly 1 when the sum
exceeds 1. -/
theorem af_clamp_min (rows : List ParsedRow) (r : ParsedRow)
    (h : r ∈ rm_vcf_redundancy rows) :
    (r.af = min 1 (((groupOf rows (keyOf r)).map (fun x => x.af)).sum))
    ∧ (∀ nums : List ℚ, nums.sum ≤ 1 → af_sum nums = nums.sum)
    ∧ (∀ nums : List ℚ, 1 < nums.sum → af_sum nums = 1) := by
  have h' : ∃ k ∈ lociKeys rows, mergeGroup (groupOf rows k) = r := by
    simpa [rm_vcf_redundancy] using h
  have hcase1 : ∀ nums : List ℚ, nums.sum ≤ 1 → af_sum nums = nums.sum := by
    intro nums hle
    simp [af_sum, not_lt.mpr hle]
  have hcase2 : ∀ nums : List ℚ, 1 < nums.sum → af_sum nums = 1 := by
    intro nums hlt
    simp [af_sum, hlt]
  refine ⟨?_, hcase1, hcase2⟩
  rcases h' with ⟨k, hk, rfl⟩
  rw [keyOf_mergeGroup (groupOf_ne_nil hk) (groupOf_key rows k)]
  show af_sum ((groupOf rows k).map fun x => x.af) = _
  rcases le_or_lt (((groupOf rows k).map fun x => x.af).sum) 1 with hle | hlt
  · rw [hcase1 _ hle, min_eq_right hle]
  · rw [hcase2 _ hlt, min_eq_left hlt.le]

/-- C2 witness: the AF-clamp equation instantiated on Scenario A's two
records merged at locus `("chr1", 100, 150)`. -/
theorem af_clamp_min_witness :
    (mergeGroup (groupOf [cRow1, cRow2] ("chr1", 100, 150))).af
      = min 1 (((groupOf [cRow1, cRow2] ("chr1", 100, 150)).map
          (fun x => x.af)).sum) := by
  have hk : (("chr1", 100, 150) : LocusKey) ∈ lociKeys [cRow1, cRow2] := by
    decide
  have hmem : mergeGroup (groupOf [cRow1, cRow2] ("chr1", 100, 150))
      ∈ rm_vcf_redundancy [cRow1, cRow2] := by
    show _ ∈ (lociKeys [cRow1, cRow2]).map _
    exact List.mem_map_of_mem _ hk
  have hkey : keyOf (mergeGroup (groupOf [cRow1, cRow2] ("chr1", 100, 150)))
      = ("chr1", 100, 150) := by decide
  have hm := (af_clamp_min [cRow1, cRow2] _ hmem).1
  rw [hkey] at hm
  exact hm

lemma wrap64_congr {a b : Int}
    (h : a % 18446744073709551616 = b % 18446744073709551616) :
    wrap64 a = wrap64 b := by
  unfold wrap64
  omega

lemma wrap64_emod (a : Int) :
    wrap64 a % 18446744073709551616 = a % 18446744073709551616 := by
  unfold wrap64
  omega

lemma wrap64_add_wrap64 (a b : Int) :
    wrap64 (wrap64 a + wrap64 b) = wrap64 (a + b) := by
  apply wrap64_congr
  have ha := wrap64_emod a
  have hb := wrap64_emod b
  omega

/-- C6 counterexample: the merged count fields do NOT equal the exact group
sums — pandas' int64 sums wrap on overflow.  Two rows at one locus with
coverage `2^62` each merge to coverage `-2^63`, not `2^63`. -/
theorem counts_overflow_counterexample :
    (mergeGroup [oRow1, oRow2]).coverage = -9223372036854775808
    ∧ ([oRow1, oRow2].map (fun r => r.coverage)).sum = 9223372036854775808
    ∧ (mergeGroup [oRow1, oRow2]).coverage
        ≠ ([oRow1, oRow2].map (fun r => r.coverage)).sum := by
  refine ⟨by decide, by decide, by decide⟩

/-- C6 amended: the merged coverage, ref_count and alt_count each equal the
int64-wrapped sum (`wrap64` of the exact sum) of their group's fields; the
wrapped result is invariant under permutation of the group, and combining
the wrapped sums of two sub-groups wraps to the wrapped sum of their
concatenation — the reduction is associative and commutative over any
grouping or order. -/
theorem counts_wrapped_sum (g g' : List ParsedRow) (h : g.Perm g') :
    ((mergeGroup g).coverage = wrap64 (g.map (fun r => r.coverage)).sum
      ∧ (mergeGroup g).ref_count = wrap64 (g.map (fun r => r.ref_count)).sum
      ∧ (mergeGroup g).alt_count = wrap64 (g.map (fun r => r.alt_count)).sum)
    ∧ ((mergeGroup g).coverage = (mergeGroup g').coverage
      ∧ (mergeGroup g).ref_count = (mergeGroup g').ref_count
      ∧ (mergeGroup g).alt_count = (mergeGroup g').alt_count)
    ∧ (∀ g₁ g₂ : List ParsedRow,
        wrap64 (wrap64 (g₁.map (fun r => r.coverage)).sum
            + wrap64 (g₂.map (fun r => r.coverage)).sum)
          = wrap64 ((g₁ ++ g₂).map (fun r => r.coverage)).sum
        ∧ wrap64 (wrap64 (g₁.map (fun r => r.ref_count)).sum
            + wrap64 (g₂.map (fun r => r.ref_count)).sum)
          = wrap64 ((g₁ ++ g₂).map (fun r => r.ref_count)).sum
        ∧ wrap64 (wrap64 (g₁.map (fun r => r.alt_count)).sum
            + wrap64 (g₂.map (fun r => r.alt_count)).sum)
          = wrap64 ((g₁ ++ g₂).map (fun r => r.alt_count)).sum) := by
  refine ⟨⟨rfl, rfl, rfl⟩, ⟨?_, ?_, ?_⟩, ?_⟩
  · exact congrArg wrap64 (h.map (fun r => r.coverage)).sum_eq
  · exact congrArg wrap64 (h.map (fun r => r.ref_count)).sum_eq
  · exact congrArg wrap64 (h.map (fun r => r.alt_count)).sum_eq
  · intro g₁ g₂
    refine ⟨?_, ?_, ?_⟩ <;>
      · rw [wrap64_add_wrap64]
        exact congrArg wrap64 (by simp)

/-- C6 witness: the wrapped-sum aggregation instantiated on Scenario A's
group and its reversal. -/
theorem counts_wrapped_sum_witness :
    (mergeGroup [cRow1, cRow2]).coverage
      = wrap64 ([cRow1, cRow2].map (fun r => r.coverage)).sum
    ∧ (mergeGroup [cRow1, cRow2]).coverage
      = (mergeGroup [cRow2, cRow1]).coverage := by
  have h : ([cRow1, cRow2] : List ParsedRow).Perm [cRow2, cRow1] :=
    List.Perm.swap cRow2 cRow1 []
  exact ⟨(counts_wrapped_sum _ _ h).1.1, (counts_wrapped_sum _ _ h).2.1.1⟩

/-- C7 counterexample: a 3-field line is not rejected by the parsing stage:
`read_csv` returns it successfully, padded to the 13-column schema with the
missing-value marker — there is no `MalformedRecord` abort. -/
theorem short_line_counterexample :
    readCsv ["chr1\t100\t150"] = Except.ok [readCsvLine "chr1\t100\t150"]
    ∧ readCsvLine "chr1\t100\t150"
        = [some "chr1", some "100", some "150", none, none, none, none, none,
           none, none, none, none, none] := by
  exact ⟨rfl, by decide⟩

/-- C7 amended: a non-blank line with fewer than 13 tab-separated fields
does not abort the parse; `read_csv` succeeds (also when a blank line
precedes it — blank lines are skipped and yield no row), the row has
exactly 13 entries, and the missing trailing fields hold the missing-value
marker. -/
theorem short_line_padded (line : String) (hne : line ≠ "")
    (h : (pySplit '\t' line).length < 13) :
    readCsv [line] = Except.ok [readCsvLine line]
    ∧ readCsv ["", line] = Except.ok [readCsvLine line]
    ∧ (readCsvLine line).length = 13
    ∧ none ∈ readCsvLine line := by
  refine ⟨?_, ?_, ?_, ?_⟩
  · simp [readCsv, hne]
  · simp [readCsv, hne]
  · simp only [readCsvLine, List.length_append, List.length_map,
      List.length_replicate]
    omega
  · unfold readCsvLine
    refine List.mem_append_right _ ?_
    rw [List.mem_replicate]
    exact ⟨by omega, rfl⟩

/-- C7 witness: the padded-parse theorem instantiated on the concrete
3-field line. -/
theorem short_line_padded_witness :
    ("chr1\t100\t150" : String) ≠ ""
    ∧ (pySplit '\t' "chr1\t100\t150").length < 13
    ∧ (readCsv ["chr1\t100\t150"] = Except.ok [readCsvLine "chr1\t100\t150"]
      ∧ readCsv ["", "chr1\t100\t150"] = Except.ok [readCsvLine "chr1\t100\t150"]
      ∧ (readCsvLine "chr1\t100\t150").length = 13
      ∧ none ∈ readCsvLine "chr1\t100\t150") :=
  ⟨by decide, by decide,
    short_line_padded "chr1\t100\t150" (by decide) (by decide)⟩

/-- C8: on the empty input stream the file-level aggregation run fails with
pandas' `EmptyDataError` instead of producing an empty merged output (the
record-level grouping itself, and the downstream filter on empty inputs,
would all yield empty outputs — the crash comes from `pd.read_csv` on the
empty file, which the source's own TODO at line 86 leaves unhandled). -/
theorem empty_input_crashes :
    rm_vcf_redundancy_run []
        = Except.error "EmptyDataError: No columns to parse from file"
    ∧ rm_vcf_redundancy [] = []
    ∧ filter_vcf_accepted [] [] = []
    ∧ filter_vcf_audit [] [] = [] :=
  ⟨rfl, rfl, rfl, rfl⟩

/-- C9 counterexample: a row whose genotype field carries a leading space
keeps that leading space verbatim in the typed record and in the merged
output's genotype column — it is not trimmed. -/
theorem genotype_whitespace_counterexample :
    ((rowOfFields (readCsvLine cLine1)).map (fun r => r.genotype)) = some " 0/1"
    ∧ ((rowOfFields (readCsvLine cLine1)).map
        (fun r => (rm_vcf_redundancy [r]).map (fun x => x.genotype)))
      = some [" 0/1"]
    ∧ (" 0/1" : String).data.head? = some ' ' := by
  refine ⟨by decide, by decide, rfl⟩

/-- C9 amended: the integer ref-depth and alt-depth columns discard leading
whitespace through numeric conversion, but the genotype field is stored
verbatim — a leading space on GT is preserved into the record (and hence
the merged output). -/
theorem genotype_kept_depths_parsed (f : List (Option String)) (r : ParsedRow)
    (h : rowOfFields f = some r) :
    f.getD 10 none = some r.genotype
    ∧ ∀ s : String, pandasInt (" " ++ s) = pandasInt s := by
  constructor
  · unfold rowOfFields at h
    split at h
    · rename_i chr start stop length coverage af id seq reads filt genotype
        ref_count alt_count h0 h1 h2 h3 h4 h5 h6 h7 h8 h9 h10 h11 h12
      have h' := Option.some.inj h
      subst h'
      exact h10
    · simp at h
  · intro s
    unfold pandasInt
    rw [String.data_append]
    have hsp : (" " : String).data = [' '] := rfl
    rw [hsp]
    simp [List.dropWhile]

/-- C10: the locus-label join used by `write_ins_seqs` and `filter_vcf` is
not injective on the raw record fields: two distinct (chr, start, end)
field triples, the first with an underscore inside the chromosome name,
produce the same label, so the evidence-membership test accepts both and
the audit set conflates them into one locus. -/
theorem label_join_not_injective :
    (("a_1", "2", "3") : String × String × String) ≠ ("a", "1", "2_3")
    ∧ pyJoin '_' ["a_1", "2", "3"] = pyJoin '_' ["a", "1", "2_3"]
    ∧ pyContains "_" "a_1" = true
    ∧ contigLabel "a_1\t2\t3\tACGT" = contigLabel "a\t1\t2_3\tTTTT"
    ∧ contigLabel "a_1\t2\t3\tACGT" ∈ ins_te_loci ["a_1_2_3\tx\ty\tRepeatMasker\tz"]
    ∧ contigLabel "a\t1\t2_3\tTTTT" ∈ ins_te_loci ["a_1_2_3\tx\ty\tRepeatMasker\tz"]
    ∧ write_ins_seqs ["a_1\t2\t3\t50\t5\t1\tid1\tACGT"] = [">a_1_2_3", "ACGT"]
    ∧ write_ins_seqs ["a\t1\t2_3\t50\t5\t1\tid2\tTTTT"] = [">a_1_2_3", "TTTT"]
    ∧ create_loci_set ["a_1\t2\t3\tACGT", "a\t1\t2_3\tTTTT"] = ["a_1_2_3"] := by
  decide

/-- C9 witness: the verbatim-genotype/parsed-depth theorem instantiated on
the concrete line `cLine2`, whose GT/DR/DV fields carry a leading space. -/
theorem genotype_kept_depths_parsed_witness :
    (readCsvLine cLine2).getD 10 none = some " 1/1"
    ∧ pandasInt (" " ++ "4") = pandasInt "4" := by
  have h : rowOfFields (readCsvLine cLine2) = some cRow3 := by decide
  exact ⟨(genotype_kept_depths_parsed _ _ h).1,
    (genotype_kept_depths_parsed _ _ h).2 "4"⟩

/-- C4: the RepeatEvidenceSet is exactly the set of first tab-delimited
fields of the report lines containing the token `"RepeatMasker"`; in
particular Scenario B's line puts `chr1_100_150` in the set, and a record
at that locus appears in the accepted output. -/
theorem evidence_set_spec (report : List String) (s : String) :
    (s ∈ ins_te_loci report
      ↔ ∃ line, line ∈ report ∧ pyContains rmToken line = true
          ∧ (splitTabNl line).headD "" = s)
    ∧ "chr1_100_150" ∈ ins_te_loci [scenB]
    ∧ cLine1 ∈ filter_vcf_accepted [cLine1] [scenB] := by
  refine ⟨?_, by decide, by decide⟩
  unfold ins_te_loci
  rw [List.mem_dedup, List.mem_map]
  constructor
  · rintro ⟨line, hline, rfl⟩
    have hm := List.mem_filter.mp hline
    exact ⟨line, hm.1, hm.2, rfl⟩
  · rintro ⟨line, hmem, htok, rfl⟩
    exact ⟨line, List.mem_filter.mpr ⟨hmem, htok⟩, rfl⟩

/-- C4 witness: Scenario B's membership fact, obtained from the theorem. -/
theorem evidence_set_spec_witness : "chr1_100_150" ∈ ins_te_loci [scenB] :=
  (evidence_set_spec [] "").2.1

/-- C1 counterexample: `filter_vcf` is applied to the MERGED table that
`parse_vcf` writes, not to the unmerged per-call rows.  With two parsed
calls at locus `chr1_100_150` and that locus in the evidence set, the
accepted output holds exactly one (merged) row, and neither original
unmerged row appears in it. -/
theorem unmerged_rows_counterexample :
    (vcf_parse_filter_accepted [cRow1, cRow2] [scenB]).length = 1
    ∧ cRow1 ∉ vcf_parse_filter_accepted [cRow1, cRow2] [scenB]
    ∧ cRow2 ∉ vcf_parse_filter_accepted [cRow1, cRow2] [scenB] := by
  refine ⟨by decide, by decide, by decide⟩

/-- C1 amended: the partition step operates on the merged per-locus table:
every locus key of the parsed input whose label lies in the
RepeatEvidenceSet contributes exactly one row (its merged row) to the
accepted output, regardless of how many supporting calls the locus had. -/
theorem merged_row_accepted_once (rows : List ParsedRow) (report : List String)
    (k : LocusKey) (hk : k ∈ lociKeys rows)
    (hacc : keyLabel k ∈ ins_te_loci report) :
    (vcf_parse_filter_accepted rows report).countP
      (fun r => decide (keyOf r = k)) = 1 := by
  have hkeys : ∀ k' ∈ lociKeys rows, keyOf (mergeGroup (groupOf rows k')) = k' :=
    fun k' hk' => keyOf_mergeGroup (groupOf_ne_nil hk') (groupOf_key rows k')
  have hnodup : (lociKeys rows).Nodup := by
    simpa [lociKeys] using List.nodup_dedup (rows.map keyOf)
  have hfin : List.countP (fun k' => decide (k' = k)) (lociKeys rows) = 1 := by
    have h2 : @List.count LocusKey instBEqOfDecidableEq k (lociKeys rows) = 1 :=
      List.count_eq_one_of_mem hnodup hk
    exact h2
  unfold vcf_parse_filter_accepted rm_vcf_redundancy
  rw [List.countP_filter, List.countP_map]
  refine Eq.trans (List.countP_congr ?_) hfin
  intro k' hk'
  simp only [Function.comp_apply, Bool.and_eq_true, decide_eq_true_eq]
  constructor
  · rintro ⟨h1, _⟩
    rw [hkeys k' hk'] at h1
    exact h1
  · rintro rfl
    constructor
    · rw [hkeys k' hk']
    · unfold rowLabel
      rw [hkeys k' hk']
      exact hacc

/-- C1 witness: the amended theorem instantiated on Scenario A's two calls
at locus `chr1_100_150` with Scenario B's report. -/
theorem merged_row_accepted_once_witness :
    (vcf_parse_filter_accepted [cRow1, cRow2] [scenB]).countP
      (fun r => decide (keyOf r = ("chr1", 100, 150))) = 1 :=
  merged_row_accepted_once [cRow1, cRow2] [scenB] ("chr1", 100, 150)
    (by decide) (by decide)

lemma pyJoin_pair_data (sep : Char) (a b : String) :
    (pyJoin sep [a, b]).data = a.data ++ sep :: b.data := by
  unfold pyJoin
  simp [List.intercalate]

lemma auditLine_inj : Function.Injective auditLine := by
  intro a b hab
  have hd := congrArg String.data hab
  rw [show auditLine a = pyJoin '\t' [a, "VCF sequence not repeatmasked"] from rfl,
    show auditLine b = pyJoin '\t' [b, "VCF sequence not repeatmasked"] from rfl,
    pyJoin_pair_data, pyJoin_pair_data] at hd
  exact String.ext (List.append_cancel_right hd)

/-- C3: for every run of the filter, a locus absent from the evidence set
gains exactly one audit line `<label>\tVCF sequence not repeatmasked` and
appears in no accepted row; a locus present in the set has its rows
accepted and gains no audit line; and the accepted and rejected locus sets
are disjoint with union the full locus set of the input. -/
theorem filter_partition_audit (ins report : List String) :
    (∀ locus ∈ create_loci_set ins, locus ∉ ins_te_loci report →
      (filter_vcf_audit ins report).countP
          (fun l => decide (l = auditLine locus)) = 1
      ∧ ∀ line ∈ filter_vcf_accepted ins report, contigLabel line ≠ locus)
    ∧ (∀ locus ∈ create_loci_set ins, locus ∈ ins_te_loci report →
      (∀ line ∈ ins, contigLabel line = locus →
        line ∈ filter_vcf_accepted ins report)
      ∧ auditLine locus ∉ filter_vcf_audit ins report)
    ∧ (∀ locus, ¬(locus ∈ acceptedLoci ins report ∧ locus ∈ rejectedLoci ins report))
    ∧ (∀ locus, (locus ∈ acceptedLoci ins report ∨ locus ∈ rejectedLoci ins report)
        ↔ locus ∈ create_loci_set ins) := by
  have hnodup_loci : (create_loci_set ins).Nodup := by
    simpa [create_loci_set] using List.nodup_dedup (ins.map contigLabel)
  refine ⟨?_, ?_, ?_, ?_⟩
  · intro locus hl hnot
    constructor
    · have hmemf : locus ∈ (create_loci_set ins).filter
          (fun l => decide (l ∉ ins_te_loci report)) :=
        List.mem_filter.mpr ⟨hl, by simpa using hnot⟩
      have hnodup : ((create_loci_set ins).filter
          (fun l => decide (l ∉ ins_te_loci report))).map auditLine |>.Nodup :=
        (hnodup_loci.filter _).map auditLine_inj
      have hmem : auditLine locus ∈ filter_vcf_audit ins report :=
        List.mem_map_of_mem auditLine hmemf
      have h2 : @List.count String instBEqOfDecidableEq (auditLine locus)
          (filter_vcf_audit ins report) = 1 :=
        List.count_eq_one_of_mem hnodup hmem
      exact h2
    · intro line hline heq
      have hin := (List.mem_filter.mp hline).2
      rw [heq] at hin
      exact hnot (by simpa using hin)
  · intro locus hl hin
    constructor
    · intro line hline heq
      exact List.mem_filter.mpr ⟨hline, by simp [heq, hin]⟩
    · intro hmem
      rcases List.mem_map.mp hmem with ⟨l', hl', heq⟩
      have : l' = locus := auditLine_inj heq
      subst this
      have := (List.mem_filter.mp hl').2
      simp at this
      exact this hin
  · intro locus ⟨ha, hb⟩
    have h1 := (List.mem_filter.mp ha).2
    have h2 := (List.mem_filter.mp hb).2
    simp at h1 h2
    exact h2 h1
  · intro locus
    constructor
    · rintro (h | h)
      · exact (List.mem_filter.mp h).1
      · exact (List.mem_filter.mp h).1
    · intro h
      by_cases hin : locus ∈ ins_te_loci report
      · exact Or.inl (List.mem_filter.mpr ⟨h, by simpa using hin⟩)
      · exact Or.inr (List.mem_filter.mpr ⟨h, by simpa using hin⟩)

/-- C3 witness: Scenario C — with an empty report, the single input locus
`chr2_500_520` is rejected and gains exactly one audit line. -/
theorem filter_partition_audit_witness :
    (filter_vcf_audit [cLine2] []).countP
      (fun l => decide (l = auditLine "chr2_500_520")) = 1 :=
  ((filter_partition_audit [cLine2] []).1 "chr2_500_520"
    (by decide) (by decide)).1
